import Mathlib

/-!
Verification of the discrete transition-system synthesis example.

The repository contains `examples/discrete.ipynb`: a six-cell grid plant
(states X0..X5), an environment boolean `park`, a GR(1) specification with
system variable `X0reach`, and the controller synthesized from them.  The
notebook records the synthesized Mealy machine (15 states: 0..13 and Sinit,
30 labeled transitions) and a simulated run of length 10.  This file embeds
the plant declarations and the recorded machine, models the parts of the
synthesis pipeline that the repository only calls (marked `Modelled from
the spec:`), and proves the design-document properties against them.
-/

/-- Grid cell locations of the 2x3 grid plant, as declared by
`sys.states.add_from` in the notebook. -/
inductive Loc
  | X0 | X1 | X2 | X3 | X4 | X5
  deriving DecidableEq, Fintype

/-- Plant transition relation as declared by the `sys.transitions.add_comb`
calls: X0->X1,X3; X1->X0,X4,X2; X2->X1,X5; X3->X0,X4; X4->X3,X1,X5; X5->X4,X2. -/
def gridAdj : List (Loc × Loc) :=
  [(Loc.X0, Loc.X1), (Loc.X0, Loc.X3),
   (Loc.X1, Loc.X0), (Loc.X1, Loc.X4), (Loc.X1, Loc.X2),
   (Loc.X2, Loc.X1), (Loc.X2, Loc.X5),
   (Loc.X3, Loc.X0), (Loc.X3, Loc.X4),
   (Loc.X4, Loc.X3), (Loc.X4, Loc.X1), (Loc.X4, Loc.X5),
   (Loc.X5, Loc.X4), (Loc.X5, Loc.X2)]

/-- Decidable form of the plant transition relation. -/
def gridTrans (a b : Loc) : Bool :=
  decide ((a, b) ∈ gridAdj)

/-- Atomic proposition `home` labels exactly X0 (`sys.states.add` with ap home). -/
def homeOf (l : Loc) : Bool :=
  decide (l = Loc.X0)

/-- Atomic proposition `lot` labels exactly X5 (`sys.states.add` with ap lot). -/
def lotOf (l : Loc) : Bool :=
  decide (l = Loc.X5)

/-- Initial plant states: `sys.states.initial.add` declares X0 only. -/
def tsInitial : List Loc :=
  [Loc.X0]

/-- States of the synthesized controller as printed by the notebook:
fourteen strategy states 0..13 plus the synthetic initial state Sinit. -/
inductive CSt
  | s0 | s1 | s2 | s3 | s4 | s5 | s6 | s7 | s8 | s9 | s10 | s11 | s12 | s13
  | sInit
  deriving DecidableEq, Fintype

/-- Output valuation carried by each controller transition, with the ports
in the order the notebook prints them: X0reach, lot, home, loc. -/
structure COut where
  x0reach : Bool
  lot : Bool
  home : Bool
  loc : Loc
  deriving DecidableEq

/-- Transition function of the recorded controller: for each machine state
and each value of the input `park`, the target state of the unique printed
transition with that label. -/
def cDelta : CSt → Bool → CSt
  | CSt.s0, false => CSt.s2
  | CSt.s0, true => CSt.s3
  | CSt.s1, false => CSt.s2
  | CSt.s1, true => CSt.s3
  | CSt.s2, false => CSt.s4
  | CSt.s2, true => CSt.s5
  | CSt.s3, false => CSt.s4
  | CSt.s3, true => CSt.s5
  | CSt.s4, false => CSt.s6
  | CSt.s4, true => CSt.s7
  | CSt.s5, false => CSt.s6
  | CSt.s5, true => CSt.s7
  | CSt.s6, false => CSt.s8
  | CSt.s6, true => CSt.s9
  | CSt.s7, false => CSt.s8
  | CSt.s7, true => CSt.s9
  | CSt.s8, false => CSt.s10
  | CSt.s8, true => CSt.s11
  | CSt.s9, false => CSt.s10
  | CSt.s9, true => CSt.s11
  | CSt.s10, false => CSt.s12
  | CSt.s10, true => CSt.s13
  | CSt.s11, false => CSt.s12
  | CSt.s11, true => CSt.s13
  | CSt.s12, false => CSt.s2
  | CSt.s12, true => CSt.s3
  | CSt.s13, false => CSt.s2
  | CSt.s13, true => CSt.s3
  | CSt.sInit, false => CSt.s0
  | CSt.sInit, true => CSt.s1

/-- Output function of the recorded controller: for each machine state and
each value of the input `park`, the output valuation of the unique printed
transition with that label, transcribed edge by edge. -/
def cOut : CSt → Bool → COut
  | CSt.s0, false => ⟨false, false, false, Loc.X1⟩
  | CSt.s0, true => ⟨false, false, false, Loc.X1⟩
  | CSt.s1, false => ⟨false, false, false, Loc.X1⟩
  | CSt.s1, true => ⟨false, false, false, Loc.X1⟩
  | CSt.s2, false => ⟨false, false, false, Loc.X4⟩
  | CSt.s2, true => ⟨false, false, false, Loc.X4⟩
  | CSt.s3, false => ⟨false, false, false, Loc.X4⟩
  | CSt.s3, true => ⟨false, false, false, Loc.X4⟩
  | CSt.s4, false => ⟨false, true, false, Loc.X5⟩
  | CSt.s4, true => ⟨false, true, false, Loc.X5⟩
  | CSt.s5, false => ⟨false, true, false, Loc.X5⟩
  | CSt.s5, true => ⟨false, true, false, Loc.X5⟩
  | CSt.s6, false => ⟨true, false, false, Loc.X4⟩
  | CSt.s6, true => ⟨true, false, false, Loc.X4⟩
  | CSt.s7, false => ⟨true, false, false, Loc.X4⟩
  | CSt.s7, true => ⟨true, false, false, Loc.X4⟩
  | CSt.s8, false => ⟨false, false, false, Loc.X1⟩
  | CSt.s8, true => ⟨false, false, false, Loc.X1⟩
  | CSt.s9, false => ⟨false, false, false, Loc.X1⟩
  | CSt.s9, true => ⟨false, false, false, Loc.X1⟩
  | CSt.s10, false => ⟨false, false, true, Loc.X0⟩
  | CSt.s10, true => ⟨false, false, true, Loc.X0⟩
  | CSt.s11, false => ⟨false, false, true, Loc.X0⟩
  | CSt.s11, true => ⟨false, false, true, Loc.X0⟩
  | CSt.s12, false => ⟨false, false, false, Loc.X1⟩
  | CSt.s12, true => ⟨false, false, false, Loc.X1⟩
  | CSt.s13, false => ⟨false, false, false, Loc.X1⟩
  | CSt.s13, true => ⟨false, false, false, Loc.X1⟩
  | CSt.sInit, false => ⟨true, false, true, Loc.X0⟩
  | CSt.sInit, true => ⟨true, false, true, Loc.X0⟩

/-- Initial-state set of the recorded controller as printed:
SubSet with the single element Sinit. -/
def cInitial : List CSt :=
  [CSt.sInit]

/-- Input port list of the recorded controller as printed. -/
def inputPortNames : List String :=
  ["park"]

/-- Output port list of the recorded controller as printed. -/
def outputPortNames : List String :=
  ["X0reach", "lot", "home", "loc"]

/-- Printed domain of the input port park. -/
def parkDom : List Nat :=
  [0, 1]

/-- Printed domain of the output port loc, in the printed order. -/
def locPortDom : List String :=
  ["X1", "X5", "X2", "X0", "X3", "X4"]

/-- Environment variables declared in the notebook (`env_vars`). -/
def envVarsDecl : List String :=
  ["park"]

/-- System variables declared in the notebook (`sys_vars`). -/
def sysVarsDecl : List String :=
  ["X0reach"]

/-- Atomic propositions declared on the plant (`sys.atomic_propositions`). -/
def apsDecl : List String :=
  ["home", "lot"]

/-- Names of the plant states declared in the notebook. -/
def tsStateNames : List String :=
  ["X0", "X1", "X2", "X3", "X4", "X5"]

/-- System safety formula of the example, with the notebook's explicit
parenthesization `(X (X0reach) <-> lot) || (X0reach && !park)`: `p` is the
current `park` input, `o` the current output valuation, and `o2` the output
valuation of the following step (supplying the next-step X0reach value). -/
def sysSafeHolds (p : Bool) (o o2 : COut) : Prop :=
  o2.x0reach = o.lot ∨ (o.x0reach = true ∧ p = false)

instance (p : Bool) (o o2 : COut) : Decidable (sysSafeHolds p o o2) :=
  inferInstanceAs (Decidable (o2.x0reach = o.lot ∨ (o.x0reach = true ∧ p = false)))

/-- Transducer shape from the design document: an initial state, a
transition function on the single boolean input `park`, and an output
valuation per transition. -/
structure Mach (σ : Type) where
  init : σ
  delta : σ → Bool → σ
  out : σ → Bool → COut

/-- The recorded example controller packaged as a machine. -/
def ctrlM : Mach CSt :=
  ⟨CSt.sInit, cDelta, cOut⟩

/-- State reached from `s` after consuming the first `t` values of the
input stream `f`. -/
def mRun {σ : Type} (M : Mach σ) : σ → (Nat → Bool) → Nat → σ
  | s, _, 0 => s
  | s, f, t + 1 => mRun M (M.delta s (f 0)) (fun n => f (n + 1)) t

/-- Output valuation emitted at step `t` of the run of `M` from its initial
state on input stream `f`. -/
def mOutAt {σ : Type} (M : Mach σ) (f : Nat → Bool) (t : Nat) : COut :=
  M.out (mRun M M.init f t) (f t)

/-- Environment progress assumption of the example (`env_prog = !park`):
the input park is false infinitely often. -/
def EnvFair (f : Nat → Bool) : Prop :=
  ∀ t, ∃ u, t ≤ u ∧ f u = false

/-- Moore semantics: the output valuation is a pure function of the
pre-transition state. -/
def MooreOK {σ : Type} (M : Mach σ) : Prop :=
  ∀ (s : σ) (i i2 : Bool), M.out s i = M.out s i2

/-- Initialization per `sys_init` and qinit exists-system-forall-environment:
for every environment initial input the first output places the plant in an
initial plant state with X0reach true. -/
def InitOK {σ : Type} (M : Mach σ) : Prop :=
  ∀ i : Bool, (M.out M.init i).loc ∈ tsInitial ∧ (M.out M.init i).x0reach = true

/-- Output valuations agree with the plant labeling: home and lot are the
atomic propositions of the current plant location. -/
def APOK {σ : Type} (M : Mach σ) : Prop :=
  ∀ (f : Nat → Bool) (t : Nat),
    (mOutAt M f t).home = homeOf (mOutAt M f t).loc ∧
    (mOutAt M f t).lot = lotOf (mOutAt M f t).loc

/-- The emitted plant locations form a run of the plant: the first location
is an initial plant state and successive locations follow the grid relation. -/
def PlantOK {σ : Type} (M : Mach σ) : Prop :=
  ∀ f : Nat → Bool, (mOutAt M f 0).loc ∈ tsInitial ∧
    ∀ t : Nat, gridTrans (mOutAt M f t).loc (mOutAt M f (t + 1)).loc = true

/-- The system safety formula holds at every step of every run. -/
def SafeOK {σ : Type} (M : Mach σ) : Prop :=
  ∀ (f : Nat → Bool) (t : Nat),
    sysSafeHolds (f t) (mOutAt M f t) (mOutAt M f (t + 1))

/-- GR(1) progress: on every run whose input satisfies the environment
progress assumption, each system progress goal holds infinitely often. -/
def ProgOK {σ : Type} (M : Mach σ) (goals : List (COut → Bool)) : Prop :=
  ∀ f : Nat → Bool, EnvFair f →
    ∀ g ∈ goals, ∀ t : Nat, ∃ u, t ≤ u ∧ g (mOutAt M f u) = true

/-- A machine is a winning Moore strategy for the example plant and the
given system progress goals. -/
def WinsFor {σ : Type} (M : Mach σ) (goals : List (COut → Bool)) : Prop :=
  MooreOK M ∧ InitOK M ∧ APOK M ∧ PlantOK M ∧ SafeOK M ∧ ProgOK M goals

/-- Realizability per the design document: some winning strategy transducer
exists for the given system progress goals. -/
def RealizableFor (goals : List (COut → Bool)) : Prop :=
  ∃ (σ : Type) (M : Mach σ), WinsFor M goals

/-- System progress goals of the example: `sys_prog = home, X0reach`. -/
def exGoals : List (COut → Bool) :=
  [fun o => o.home, fun o => o.x0reach]

/-- A jointly unsatisfiable progress goal used to exhibit unrealizability:
home and lot label distinct plant states, so no plant-consistent output
ever satisfies it. -/
def badGoals : List (COut → Bool) :=
  [fun o => o.home && o.lot]

/-- Modelled from the spec: `synth.synthesize` itself is not under src/.
Per sections 4.2 and 7 of the design, the synthesizer reports
unrealizability as a first-class non-exceptional outcome: its result is
`none` exactly when no winning transducer exists, and `some` machine only
when that machine wins, so callers distinguish the two by testing the
returned value. -/
def SynthesizeReturns (goals : List (COut → Bool))
    (r : Option ((σ : Type) × Mach σ)) : Prop :=
  match r with
  | none => ¬ RealizableFor goals
  | some m => WinsFor m.2 goals

/-- Bounded-recurrence checker: along every input stream from `s`, the
step predicate `P` holds at some step within the next `k` steps. -/
def withinB {σ : Type} (M : Mach σ) (P : σ → Bool → Bool) : Nat → σ → Bool
  | 0, _ => false
  | k + 1, s =>
    (P s false || withinB M P k (M.delta s false)) &&
    (P s true || withinB M P k (M.delta s true))

/-- Modelled from the spec: `machines.random_run` is not under src/.  Per
section 4.4 simulate draws an admissible input at each step (every boolean
park value is admissible, the environment has no safety formulas) and
applies step; this is the resulting output trace of the recorded controller
on a given input list. -/
def runL : CSt → List Bool → List COut
  | _, [] => []
  | s, i :: r => cOut s i :: runL (cDelta s i) r

/-- Output trace of a simulate run of the recorded controller from its
initial state. -/
def traceOuts (bs : List Bool) : List COut :=
  runL CSt.sInit bs

/-- Default output used for out-of-range trace indexing. -/
def dOut : COut :=
  ⟨false, false, false, Loc.X0⟩

/-- Input stream extending a finite input list with false. -/
def streamOf (bs : List Bool) : Nat → Bool :=
  fun n => bs.getD n false

/-- Trace property: home becomes true again, at some step after step 0. -/
def homeAgainB (os : List COut) : Bool :=
  (List.range os.length).any fun t => decide (0 < t) && (os.getD t dOut).home

/-- Park response exactly as the claim states it: whenever park is true at
step t, lot is true at some step u at or after t that lies before park is
next false, i.e. park still holds at every step after t up to u. -/
def respondsStatedB (bs : List Bool) (os : List COut) : Bool :=
  (List.range bs.length).all fun t =>
    !(bs.getD t false) ||
      ((List.range bs.length).any fun u =>
        decide (t ≤ u) && (os.getD u dOut).lot &&
          ((List.range bs.length).all fun v =>
            !(decide (t < v) && decide (v ≤ u)) || bs.getD v false))

/-- The C4 trace property as claimed, on a simulate run with inputs `bs`. -/
def c4Stated (bs : List Bool) : Prop :=
  (homeAgainB (traceOuts bs) && respondsStatedB bs (traceOuts bs)) = true

/-- Park response without the deadline: whenever park is true at step t,
lot is true at some step at or after t within the trace. -/
def respondsAmendedB (bs : List Bool) (os : List COut) : Bool :=
  (List.range bs.length).all fun t =>
    !(bs.getD t false) ||
      ((List.range bs.length).any fun u =>
        decide (t ≤ u) && (os.getD u dOut).lot)

/-- The amended C4 trace property. -/
def c4Amended (bs : List Bool) : Prop :=
  (homeAgainB (traceOuts bs) && respondsAmendedB bs (traceOuts bs)) = true

/-- Input list refuting the claimed deadline: park is raised once at step 4
and lowered at step 5. -/
def bsCounter : List Bool :=
  [false, false, false, false, true, false, false, false, false, false]

/-- One-step successor set of a set of controller states. -/
def stepL (L : List CSt) : List CSt :=
  (L.map (fun s => cDelta s false) ++ L.map (fun s => cDelta s true)).dedup

/-- Controller states reachable in exactly `t` steps from a state in `L`. -/
def reachFrom : List CSt → Nat → List CSt
  | L, 0 => L
  | L, t + 1 => reachFrom (stepL L) t

/-- Numeric index of a plant location. -/
def locIdx : Loc → Nat
  | Loc.X0 => 0
  | Loc.X1 => 1
  | Loc.X2 => 2
  | Loc.X3 => 3
  | Loc.X4 => 4
  | Loc.X5 => 5

/-- Internal numeric identifier of a system move (next plant location and
next X0reach value), used by the tie-break rule. -/
def moveId (m : Loc × Bool) : Nat :=
  2 * locIdx m.1 + (if m.2 then 1 else 0)

/-- Modelled from the spec: the StrategyExtractor (section 4.3) is not
under src/.  Its tie-break contract: among the candidate rank-decreasing
responses, the chosen move is a candidate with the numerically smallest
internal identifier. -/
def TieBreakPick (cands : List (Loc × Bool)) (m : Loc × Bool) : Prop :=
  m ∈ cands ∧ ∀ m2 ∈ cands, moveId m ≤ moveId m2

/-- Transition-system input shape for the modelled front-end checks. -/
structure TransSysM where
  states : List Nat
  initial : List Nat
  trans : List (Nat × Nat)

/-- Initial-constraint part of a specification over `n` boolean variables. -/
structure InitSpecM (n : Nat) where
  envInit : (Fin n → Bool) → Bool
  sysInit : (Fin n → Bool) → Bool

/-- Synthesis outcomes per section 6 of the design. -/
inductive SynthOutcome
  | realized
  | unrealizable
  | specError
  deriving DecidableEq

/-- Modelled from the spec: GameGraph.build (section 4.1) is not under
src/.  It fails eagerly with SpecError when the transition system has no
initial state or the env-init and sys-init constraints are jointly
unsatisfiable. -/
def specErrorCheck {n : Nat} (ts : TransSysM) (sp : InitSpecM n) : Bool :=
  ts.initial.isEmpty ||
    !(decide (∃ v : Fin n → Bool, sp.envInit v = true ∧ sp.sysInit v = true))

/-- Modelled from the spec: the synthesis front end runs the eager
GameGraph checks first and only then consults the solver, whose verdict is
abstracted as the parameter `solve`. -/
def synthesizeChecked {n : Nat} (ts : TransSysM) (sp : InitSpecM n)
    (solve : SynthOutcome) : SynthOutcome :=
  if specErrorCheck ts sp then SynthOutcome.specError else solve

/-- C2: the specification sets `specs.moore = True`, and the recorded
machine indeed has Moore semantics: from every controller state, the
transitions for input park=False and park=True carry the same output
valuation, so the output is a pure function of the pre-transition state. -/
theorem moore_output_state_function :
    ∀ (s : CSt) (i i2 : Bool), cOut s i = cOut s i2 := by
  decide

/-- C8: the recorded controller has exactly the one synthetic initial state
Sinit, and no transition of the machine targets Sinit, so the initial state
has no incoming transitions and every transition targets a non-initial state. -/
theorem sinit_unique_no_incoming :
    cInitial = [CSt.sInit] ∧ ∀ (s : CSt) (i : Bool), cDelta s i ≠ CSt.sInit := by
  decide

/-- C9: every transition output of the recorded controller is consistent
with the plant: home holds exactly on loc = X0, lot holds exactly on
loc = X5, and for every pair of consecutive transitions the successive loc
values are related by the declared grid transition relation. -/
theorem outputs_consistent_with_plant :
    ∀ (s : CSt) (i : Bool),
      (cOut s i).home = homeOf (cOut s i).loc ∧
      (cOut s i).lot = lotOf (cOut s i).loc ∧
      ∀ i2 : Bool, gridTrans (cOut s i).loc (cOut (cDelta s i) i2).loc = true := by
  decide

/-- C10: the machine's input ports are exactly the declared environment
variables, its output ports are exactly the declared system variables plus
the plant's atomic propositions plus a loc port, the loc port's domain is
exactly the plant's state set, and the boolean park port has domain 0,1. -/
theorem ports_match_declarations :
    inputPortNames = envVarsDecl ∧
    outputPortNames.Perm (sysVarsDecl ++ apsDecl ++ ["loc"]) ∧
    locPortDom.Perm tsStateNames ∧
    parkDom = [0, 1] := by
  decide

/-- Runs agree on pointwise-equal input streams. -/
theorem mRun_congr {σ : Type} (M : Mach σ) :
    ∀ (t : Nat) (s : σ) (f g : Nat → Bool), (∀ n, f n = g n) →
      mRun M s f t = mRun M s g t := by
  intro t
  induction t with
  | zero => intro s f g h; rfl
  | succ k ih =>
    intro s f g h
    show mRun M (M.delta s (f 0)) (fun n => f (n + 1)) k =
      mRun M (M.delta s (g 0)) (fun n => g (n + 1)) k
    rw [h 0]
    exact ih _ _ _ (fun n => h (n + 1))

/-- Peeling one step off the end of a run. -/
theorem mRun_succ_right {σ : Type} (M : Mach σ) :
    ∀ (t : Nat) (s : σ) (f : Nat → Bool),
      mRun M s f (t + 1) = M.delta (mRun M s f t) (f t) := by
  intro t
  induction t with
  | zero => intro s f; rfl
  | succ k ih =>
    intro s f
    show mRun M (M.delta s (f 0)) (fun n => f (n + 1)) (k + 1) = _
    rw [ih]
    rfl

/-- Splitting a run at an intermediate time point. -/
theorem mRun_add {σ : Type} (M : Mach σ) :
    ∀ (t u : Nat) (s : σ) (f : Nat → Bool),
      mRun M s f (t + u) = mRun M (mRun M s f t) (fun n => f (t + n)) u := by
  intro t
  induction t with
  | zero =>
    intro u s f
    rw [Nat.zero_add]
    exact mRun_congr M u s f _ (fun n => congrArg f (Nat.zero_add n).symm)
  | succ k ih =>
    intro u s f
    rw [Nat.succ_add]
    show mRun M (M.delta s (f 0)) (fun n => f (n + 1)) (k + u) = _
    rw [ih]
    exact mRun_congr M u _ _ _ (fun n => congrArg f (by omega))

/-- Soundness of the bounded-recurrence checker: when it accepts, the step
predicate holds within the bound along every input stream. -/
theorem withinB_sound {σ : Type} (M : Mach σ) (P : σ → Bool → Bool) :
    ∀ (k : Nat) (s : σ) (f : Nat → Bool), withinB M P k s = true →
      ∃ u, u < k ∧ P (mRun M s f u) (f u) = true := by
  intro k
  induction k with
  | zero =>
    intro s f h
    exact absurd h (by simp [withinB])
  | succ m ih =>
    intro s f h
    unfold withinB at h
    rw [Bool.and_eq_true] at h
    by_cases hp : P s (f 0) = true
    · exact ⟨0, Nat.succ_pos m, hp⟩
    · have hbranch : withinB M P m (M.delta s (f 0)) = true := by
        cases hf : f 0
        · have h1 := h.1
          rw [Bool.or_eq_true] at h1
          rcases h1 with h2 | h2
          · rw [hf] at hp; exact absurd h2 hp
          · exact h2
        · have h1 := h.2
          rw [Bool.or_eq_true] at h1
          rcases h1 with h2 | h2
          · rw [hf] at hp; exact absurd h2 hp
          · exact h2
      rcases ih (M.delta s (f 0)) (fun n => f (n + 1)) hbranch with ⟨u, hu, hP⟩
      exact ⟨u + 1, Nat.succ_lt_succ hu, hP⟩

/-- From every controller state, home is emitted within seven steps. -/
theorem ctrl_home_within :
    ∀ s : CSt, withinB ctrlM (fun s i => (cOut s i).home) 7 s = true := by
  decide

/-- From every controller state, X0reach is emitted within seven steps. -/
theorem ctrl_x0reach_within :
    ∀ s : CSt, withinB ctrlM (fun s i => (cOut s i).x0reach) 7 s = true := by
  decide

/-- Unconditional recurrence of a goal on runs of the recorded controller,
from its bounded-recurrence certificate. -/
theorem ctrl_recur (g : COut → Bool)
    (hall : ∀ s : CSt, withinB ctrlM (fun s i => g (cOut s i)) 7 s = true) :
    ∀ (f : Nat → Bool) (t : Nat), ∃ u, t ≤ u ∧ g (mOutAt ctrlM f u) = true := by
  intro f t
  rcases withinB_sound ctrlM _ 7 (mRun ctrlM ctrlM.init f t) (fun n => f (t + n))
    (hall _) with ⟨u, _, hP⟩
  refine ⟨t + u, Nat.le_add_right t u, ?_⟩
  unfold mOutAt
  rw [mRun_add ctrlM t u ctrlM.init f]
  exact hP

/-- The recorded controller is a winning Moore strategy for the example
specification with progress goals home and X0reach. -/
theorem ctrl_wins : WinsFor ctrlM exGoals := by
  refine ⟨?_, ?_, ?_, ?_, ?_, ?_⟩
  · have hm : ∀ (s : CSt) (i i2 : Bool), cOut s i = cOut s i2 := by decide
    exact hm
  · have hi : ∀ i : Bool,
        (cOut CSt.sInit i).loc ∈ tsInitial ∧ (cOut CSt.sInit i).x0reach = true := by
      decide
    exact hi
  · have hap : ∀ (s : CSt) (i : Bool),
        (cOut s i).home = homeOf (cOut s i).loc ∧
        (cOut s i).lot = lotOf (cOut s i).loc := by
      decide
    intro f t
    exact hap _ _
  · have h0 : ∀ i : Bool, (cOut CSt.sInit i).loc ∈ tsInitial := by decide
    have hstep : ∀ (s : CSt) (i i2 : Bool),
        gridTrans (cOut s i).loc (cOut (cDelta s i) i2).loc = true := by
      decide
    intro f
    refine ⟨h0 (f 0), ?_⟩
    intro t
    unfold mOutAt
    rw [mRun_succ_right]
    exact hstep _ _ _
  · have hsafe : ∀ (s : CSt) (i i2 : Bool),
        sysSafeHolds i (cOut s i) (cOut (cDelta s i) i2) := by
      decide
    intro f t
    unfold mOutAt
    rw [mRun_succ_right]
    exact hsafe _ _ _
  · intro f _ g hg t
    rcases List.mem_cons.mp hg with h | h
    · rw [h]
      exact ctrl_recur _ ctrl_home_within f t
    · rw [List.mem_singleton.mp h]
      exact ctrl_recur _ ctrl_x0reach_within f t

/-- C1: for the example plant and GR(1) specification, synthesis under the
Moore flag and exists-system-then-forall-environment initialization reports
Realizable: a winning strategy transducer exists (witnessed by the machine
recorded in the notebook), so the modelled synthesizer returns a Transducer
rather than the unrealizable outcome. -/
theorem example_spec_realizable : RealizableFor exGoals :=
  ⟨CSt, ctrlM, ctrl_wins⟩

/-- C3: on every trace of the recorded controller from its initial state,
at every step the emitted output valuation together with the input
valuation satisfies every declared safety formula of both players: the
environment declared none, and the system safety formula
(X (X0reach) <-> lot) || (X0reach && !park) holds under the next-step
X0reach value. -/
theorem safety_preserved_on_traces :
    ∀ (f : Nat → Bool) (t : Nat),
      sysSafeHolds (f t) (mOutAt ctrlM f t) (mOutAt ctrlM f (t + 1)) := by
  have hsafe : ∀ (s : CSt) (i i2 : Bool),
      sysSafeHolds i (cOut s i) (cOut (cDelta s i) i2) := by
    decide
  intro f t
  unfold mOutAt
  rw [mRun_succ_right]
  exact hsafe _ _ _

/-- No machine wins for the jointly unsatisfiable progress goal home and
lot: outputs are plant-consistent, and no plant state carries both labels. -/
theorem bad_goal_unrealizable : ¬ RealizableFor badGoals := by
  rintro ⟨σ, M, hw⟩
  rcases hw with ⟨_, _, hap, _, _, hprog⟩
  have hfair : EnvFair (fun _ => false) := fun t => ⟨t, Nat.le_refl t, rfl⟩
  rcases hprog (fun _ => false) hfair (fun o => o.home && o.lot)
    (List.mem_singleton.mpr rfl) 0 with ⟨u, _, hg⟩
  rw [Bool.and_eq_true] at hg
  rcases hap (fun _ => false) u with ⟨hh, hl⟩
  have hX0 : (mOutAt M (fun _ => false) u).loc = Loc.X0 :=
    of_decide_eq_true (hh.symm.trans hg.1)
  have hX5 : (mOutAt M (fun _ => false) u).loc = Loc.X5 :=
    of_decide_eq_true (hl.symm.trans hg.2)
  exact absurd (hX0.symm.trans hX5) (by decide)

/-- C5: an unrealizable specification is a distinguishable non-exceptional
outcome: for the jointly unsatisfiable goal every contract-conforming
synthesizer result is the testable value none, while for the example
specification a result different from none exists, so callers distinguish
no-controller-exists from success by comparing the returned value. -/
theorem unrealizable_reported_as_value :
    (∀ r : Option ((σ : Type) × Mach σ), SynthesizeReturns badGoals r → r = none) ∧
    (∃ r : Option ((σ : Type) × Mach σ), SynthesizeReturns exGoals r ∧ r ≠ none) := by
  constructor
  · intro r hr
    cases r with
    | none => rfl
    | some m => exact absurd ⟨m.1, m.2, hr⟩ bad_goal_unrealizable
  · exact ⟨some ⟨CSt, ctrlM⟩, ctrl_wins, Option.some_ne_none _⟩

/-- Witness for C5 at the concrete returned value none. -/
theorem unrealizable_reported_as_value_witness :
    (none : Option ((σ : Type) × Mach σ)) = none :=
  unrealizable_reported_as_value.1 none bad_goal_unrealizable

/-- C6: with the tie-break rule of the strategy extractor fixed, synthesis
is deterministic: any two strategy maps that both pick, at every game state
and environment move, the candidate response with the numerically smallest
identifier are equal, so two synthesis runs build structurally identical
transducers. -/
theorem tiebreak_forces_determinism :
    ∀ (resp : Bool × Loc × Bool → Bool → List (Loc × Bool))
      (ch1 ch2 : Bool × Loc × Bool → Bool → Loc × Bool),
      (∀ q i, TieBreakPick (resp q i) (ch1 q i)) →
      (∀ q i, TieBreakPick (resp q i) (ch2 q i)) →
      ch1 = ch2 := by
  intro resp ch1 ch2 h1 h2
  funext q i
  have ha := h1 q i
  have hb := h2 q i
  have hle : moveId (ch1 q i) ≤ moveId (ch2 q i) := ha.2 _ hb.1
  have hge : moveId (ch2 q i) ≤ moveId (ch1 q i) := hb.2 _ ha.1
  have hinj : ∀ m1 m2 : Loc × Bool, moveId m1 = moveId m2 → m1 = m2 := by decide
  exact hinj _ _ (Nat.le_antisymm hle hge)

/-- Witness for C6 on a concrete singleton candidate set. -/
theorem tiebreak_forces_determinism_witness :
    (fun (_ : Bool × Loc × Bool) (_ : Bool) => (Loc.X0, true)) =
      (fun (_ : Bool × Loc × Bool) (_ : Bool) => (Loc.X0, true)) :=
  tiebreak_forces_determinism (fun _ _ => [(Loc.X0, true)])
    (fun _ _ => (Loc.X0, true)) (fun _ _ => (Loc.X0, true))
    (fun _ _ => ⟨List.mem_singleton.mpr rfl, fun m2 hm2 => by
      rw [List.mem_singleton.mp hm2]⟩)
    (fun _ _ => ⟨List.mem_singleton.mpr rfl, fun m2 hm2 => by
      rw [List.mem_singleton.mp hm2]⟩)

/-- C7: synthesis on a transition system with zero initial states, or on a
specification whose env-init and sys-init constraints are jointly
unsatisfiable, yields the SpecError outcome and never Unrealizable,
whatever verdict the downstream solver would have produced. -/
theorem spec_error_precedence :
    ∀ (n : Nat) (ts : TransSysM) (sp : InitSpecM n) (solve : SynthOutcome),
      (ts.initial = [] ∨
        ¬ ∃ v : Fin n → Bool, sp.envInit v = true ∧ sp.sysInit v = true) →
      synthesizeChecked ts sp solve = SynthOutcome.specError ∧
      synthesizeChecked ts sp solve ≠ SynthOutcome.unrealizable := by
  intro n ts sp solve h
  have hc : specErrorCheck ts sp = true := by
    unfold specErrorCheck
    rcases h with h | h
    · rw [h]
      rfl
    · rw [decide_eq_false h]
      simp
  have hout : synthesizeChecked ts sp solve = SynthOutcome.specError := by
    unfold synthesizeChecked
    rw [hc]
    rfl
  exact ⟨hout, by rw [hout]; exact fun hx => SynthOutcome.noConfusion hx⟩

/-- Witness for C7 at a concrete empty-initial-state transition system. -/
theorem spec_error_precedence_witness :
    synthesizeChecked ⟨[], [], []⟩ (⟨fun _ => true, fun _ => true⟩ : InitSpecM 1)
      SynthOutcome.realized = SynthOutcome.specError ∧
    synthesizeChecked ⟨[], [], []⟩ (⟨fun _ => true, fun _ => true⟩ : InitSpecM 1)
      SynthOutcome.realized ≠ SynthOutcome.unrealizable :=
  spec_error_precedence 1 ⟨[], [], []⟩ ⟨fun _ => true, fun _ => true⟩
    SynthOutcome.realized (Or.inl rfl)

/-- Stepping stays inside the one-step successor set. -/
theorem mem_stepL {s : CSt} {L : List CSt} (h : s ∈ L) (i : Bool) :
    cDelta s i ∈ stepL L := by
  unfold stepL
  rw [List.mem_dedup, List.mem_append]
  cases i
  · exact Or.inl (List.mem_map.mpr ⟨s, h, rfl⟩)
  · exact Or.inr (List.mem_map.mpr ⟨s, h, rfl⟩)

/-- The controller state after `t` steps lies in the `t`-step reach set. -/
theorem mRun_mem_reachFrom :
    ∀ (t : Nat) (s : CSt) (f : Nat → Bool) (L : List CSt), s ∈ L →
      mRun ctrlM s f t ∈ reachFrom L t := by
  intro t
  induction t with
  | zero => intro s f L h; exact h
  | succ k ih =>
    intro s f L h
    show mRun ctrlM (cDelta s (f 0)) (fun n => f (n + 1)) k ∈ reachFrom (stepL L) k
    exact ih _ _ _ (mem_stepL h (f 0))

/-- Every controller state reachable in exactly six steps emits home. -/
theorem reach_six_home :
    ∀ s ∈ reachFrom [CSt.sInit] 6, ∀ i : Bool, (cOut s i).home = true := by
  decide

/-- Every controller state reachable in exactly nine steps emits lot. -/
theorem reach_nine_lot :
    ∀ s ∈ reachFrom [CSt.sInit] 9, ∀ i : Bool, (cOut s i).lot = true := by
  decide

/-- The simulate trace has one output per input. -/
theorem runL_length : ∀ (bs : List Bool) (s : CSt), (runL s bs).length = bs.length := by
  intro bs
  induction bs with
  | nil => intro s; rfl
  | cons i r ih =>
    intro s
    show (runL (cDelta s i) r).length + 1 = r.length + 1
    rw [ih]

/-- The output at position `t` of a simulate trace is the output the
controller emits at step `t` of the corresponding stream run. -/
theorem runL_getD :
    ∀ (bs : List Bool) (s : CSt) (t : Nat), t < bs.length →
      (runL s bs).getD t dOut =
        cOut (mRun ctrlM s (streamOf bs) t) (bs.getD t false) := by
  intro bs
  induction bs with
  | nil =>
    intro s t h
    exact absurd h (by simp)
  | cons i r ih =>
    intro s t h
    cases t with
    | zero => rfl
    | succ k =>
      show (runL (cDelta s i) r).getD k dOut = _
      rw [ih (cDelta s i) k (by simpa using h)]
      rfl

/-- C4 counterexample: with park raised only at step 4 and lowered at step
5, the length-10 simulate trace emits lot only at steps 3 and 9, so no lot
occurs between the park request and the next step where park is false; the
claim as stated fails on this admissible input sequence. -/
theorem c4_stated_counterexample : ¬ c4Stated bsCounter := by
  unfold c4Stated
  decide

/-- C4 amended: on every length-10 simulate trace of the recorded
controller, home becomes true again after step 0, and whenever park is true
at some step, lot is true at that step or a later step within the trace
(the recorded machine guarantees eventual lot, with no deadline tied to
park being released). -/
theorem c4_amended_holds : ∀ bs : List Bool, bs.length = 10 → c4Amended bs := by
  intro bs hlen
  unfold c4Amended
  rw [Bool.and_eq_true]
  constructor
  · unfold homeAgainB traceOuts
    rw [List.any_eq_true]
    refine ⟨6, ?_, ?_⟩
    · rw [List.mem_range, runL_length, hlen]
      omega
    · rw [Bool.and_eq_true]
      refine ⟨by decide, ?_⟩
      rw [runL_getD bs CSt.sInit 6 (by omega)]
      exact reach_six_home _
        (mRun_mem_reachFrom 6 CSt.sInit (streamOf bs) [CSt.sInit]
          (List.mem_singleton.mpr rfl)) _
  · unfold respondsAmendedB traceOuts
    rw [List.all_eq_true]
    intro t ht
    rw [List.mem_range] at ht
    cases hb : bs.getD t false with
    | false =>
      rfl
    | true =>
      simp only [Bool.not_true, Bool.false_or]
      rw [List.any_eq_true]
      refine ⟨9, ?_, ?_⟩
      · rw [List.mem_range, hlen]
        omega
      · rw [Bool.and_eq_true]
        refine ⟨decide_eq_true (by omega), ?_⟩
        rw [runL_getD bs CSt.sInit 9 (by omega)]
        exact reach_nine_lot _
          (mRun_mem_reachFrom 9 CSt.sInit (streamOf bs) [CSt.sInit]
            (List.mem_singleton.mpr rfl)) _

/-- Witness for the amended C4 at the concrete all-true input sequence. -/
theorem c4_amended_witness :
    (List.replicate 10 true).length = 10 ∧ c4Amended (List.replicate 10 true) :=
  ⟨by decide, c4_amended_holds (List.replicate 10 true) (by decide)⟩
